import Mathlib

/-!
A shallow embedding of the logging facade `bugie.h`

The C header keeps one global, `bugie_log_output`, and talks to the C library
through `fopen`, `fclose`, `fprintf`, `malloc`, `gmtime`, `strftime` and
`vsnprintf`.  The embedding threads an explicit `State` through every function:
the global, the list of `fclose` calls made so far and the list of `fprintf`
calls made so far.  What the C library decides (whether `fopen` or `malloc`
succeeds, what `gmtime` returns) is an explicit argument of the function that asks.
-/

namespace Bugie

/-- A C string, as the list of the `char`s that precede its terminating NUL. -/
abbrev CStr := List Char

/-! ## Constants of the header -/

/-- The macro `BUGIE_ANSI_CODE_RED`, defined as `"\033[1;31m"` (`\033` is ESC, `\x1b`). -/
def BUGIE_ANSI_CODE_RED : CStr := "\x1b[1;31m".toList
/-- The macro `BUGIE_ANSI_CODE_GREEN`, defined as `"\033[32m"` (`\033` is ESC, `\x1b`). -/
def BUGIE_ANSI_CODE_GREEN : CStr := "\x1b[32m".toList
/-- The macro `BUGIE_ANSI_CODE_YELLOW`, defined as `"\033[1;33m"` (`\033` is ESC, `\x1b`). -/
def BUGIE_ANSI_CODE_YELLOW : CStr := "\x1b[1;33m".toList
/-- The macro `BUGIE_ANSI_CODE_BLUE`, defined as `"\033[34m"` (`\033` is ESC, `\x1b`). -/
def BUGIE_ANSI_CODE_BLUE : CStr := "\x1b[34m".toList
/-- The macro `BUGIE_ANSI_CODE_RESET`, defined as `"\033[0m"` (`\033` is ESC, `\x1b`). -/
def BUGIE_ANSI_CODE_RESET : CStr := "\x1b[0m".toList

/-- The enumerators of `enum BUGIE_LOG_LEVEL`, numbered from 0 as C numbers them.
A value of the enum type is an integer; it need not be one of the enumerators. -/
def BUGIE_LOG_LEVEL_DEBUG : Int := 0
/-- The second enumerator. -/
def BUGIE_LOG_LEVEL_INFO : Int := 1
/-- The third enumerator. -/
def BUGIE_LOG_LEVEL_WARNING : Int := 2
/-- The fourth enumerator. -/
def BUGIE_LOG_LEVEL_ERROR : Int := 3
/-- The last enumerator. -/
def BUGIE_LOG_LEVEL_NONE : Int := 4

/-! ## Streams and the program state -/

/-- The stream objects a `FILE *` can point to: the two standard streams the code
compares against, and any other stream, told apart by a number.  A `FILE *` is an
`Option FILE`, with `none` for `NULL`. -/
inductive FILE where
  | stdout
  | stderr
  | other (id : Nat)
deriving DecidableEq

/-- The record `struct BUGIE_LOG`: `stream` and `context` may be `NULL`. -/
structure BUGIE_LOG where
  stream : Option FILE
  level : Int
  context : Option CStr
  message : CStr
deriving DecidableEq

/-- The state the header works on: the global `bugie_log_output`, and the calls made
so far to `fclose` (which stream) and to `fprintf` (which stream, which text), oldest
first. -/
structure State where
  bugie_log_output : Option FILE
  closes : List FILE
  writes : List (FILE × CStr)
deriving DecidableEq

/-- The state at program start, `static FILE * bugie_log_output = NULL;`, with nothing closed or written yet. -/
def State.initial : State := { bugie_log_output := none, closes := [], writes := [] }

/-- The call `fclose(f)`: recorded. -/
def fclose (st : State) (f : FILE) : State :=
  { st with closes := st.closes ++ [f] }

/-- The call `fprintf(stream, ...)` on a non-null stream, `text` being the expansion of the
format: recorded. -/
def fprintf (st : State) (stream : FILE) (text : CStr) : State :=
  { st with writes := st.writes ++ [(stream, text)] }

/-- The expansion of a printf format whose only conversions are `%s`: each `%s` is
replaced by the next argument, every other char is copied (a `%s` with no argument
left, which no call in the header has, is copied too). -/
def printfExpand : List Char → List CStr → CStr
  | [], _ => []
  | '%' :: 's' :: rest, a :: args => a ++ printfExpand rest args
  | c :: rest, args => c :: printfExpand rest args

/-! ## The sink registry: `bugieInit`, `bugieClean`, `bugieSetLogOutput`,
`bugieSetLogOutputPath` -/

/-- The function `bugieInit`: `bugie_log_output = stdout;` -/
def bugieInit (st : State) : State :=
  { st with bugie_log_output := some FILE.stdout }

/-- The function `bugieClean`:
`if (bugie_log_output && bugie_log_output != stdout && bugie_log_output != stderr)
fclose(bugie_log_output);` -/
def bugieClean (st : State) : State :=
  match st.bugie_log_output with
  | some f => if f ≠ FILE.stdout ∧ f ≠ FILE.stderr then fclose st f else st
  | none => st

/-- The function `bugieSetLogOutput(stream)`: the same guarded `fclose` of the previous stream,
then `bugie_log_output = stream;` -/
def bugieSetLogOutput (st : State) (stream : Option FILE) : State :=
  let st1 :=
    match st.bugie_log_output with
    | some f => if f ≠ FILE.stdout ∧ f ≠ FILE.stderr then fclose st f else st
    | none => st
  { st1 with bugie_log_output := stream }

/-- The function `bugieSetLogOutputPath(filepath)`: the same guarded `fclose` of the previous
stream, then `fopen(filepath, "a")`, whose result is the argument `file`; when it is
non-null it becomes `bugie_log_output`, otherwise
`fprintf(stderr, "failed to open log file %s\n", filepath)`. -/
def bugieSetLogOutputPath (st : State) (filepath : CStr) (file : Option FILE) : State :=
  let st1 :=
    match st.bugie_log_output with
    | some f => if f ≠ FILE.stdout ∧ f ≠ FILE.stderr then fclose st f else st
    | none => st
  match file with
  | some f => { st1 with bugie_log_output := some f }
  | none => fprintf st1 FILE.stderr (printfExpand "failed to open log file %s\n".toList [filepath])

/-! ## The timestamp: `bugieGetTimeStamp` -/

/-- The fields of `struct tm` that the format of `bugieGetTimeStamp` reads. -/
structure Tm where
  tm_sec : Int
  tm_min : Int
  tm_hour : Int
  tm_mday : Int
  tm_mon : Int
  tm_year : Int
deriving DecidableEq

/-- What the C library decides during one call of `bugieGetTimeStamp`: whether
`malloc(21)` returns a buffer, what `gmtime(&raw_time)` returns (`none` for `NULL`),
and what the 21-byte buffer reads as a string while its contents are indeterminate
(fresh from `malloc`, or after a `strftime` that returned 0). -/
structure Clock where
  malloc_ok : Bool
  gmtime : Option Tm
  indeterminate : CStr
deriving DecidableEq

/-- A number in decimal, with a minus sign when negative. -/
def decimal (n : Int) : CStr :=
  if n < 0 then '-' :: Nat.toDigits 10 n.natAbs else Nat.toDigits 10 n.toNat

/-- A number in decimal on at least two digits (`01` to `09` get a leading zero). -/
def decimal2 (n : Int) : CStr :=
  if 0 ≤ n ∧ n < 10 then '0' :: decimal n else decimal n

/-- The expansion of a `strftime` format by ISO C, for the conversions the header uses:
`%Y` the year as a decimal number, `%m` the month (01-12), `%d` the day of the month,
`%H`, `%M`, `%S` the hour, minute and second on two digits; other chars are copied. -/
def strftimeExpand : List Char → Tm → CStr
  | [], _ => []
  | '%' :: 'Y' :: rest, tm => decimal (tm.tm_year + 1900) ++ strftimeExpand rest tm
  | '%' :: 'm' :: rest, tm => decimal2 (tm.tm_mon + 1) ++ strftimeExpand rest tm
  | '%' :: 'd' :: rest, tm => decimal2 tm.tm_mday ++ strftimeExpand rest tm
  | '%' :: 'H' :: rest, tm => decimal2 tm.tm_hour ++ strftimeExpand rest tm
  | '%' :: 'M' :: rest, tm => decimal2 tm.tm_min ++ strftimeExpand rest tm
  | '%' :: 'S' :: rest, tm => decimal2 tm.tm_sec ++ strftimeExpand rest tm
  | c :: rest, tm => c :: strftimeExpand rest tm

/-- The call `strftime(s, maxsize, format, tm)` by ISO C: when the expansion and its terminating
NUL fit `maxsize` chars the array holds the expansion and its length is returned;
otherwise 0 is returned and the contents of the array are indeterminate (here: what
it read as before, `s`).  The result is (return value, string in the array). -/
def strftime (s : CStr) (maxsize : Nat) (format : List Char) (tm : Tm) : Nat × CStr :=
  let out := strftimeExpand format tm
  if out.length + 1 ≤ maxsize then (out.length, out) else (0, s)

/-- The function `bugieGetTimeStamp`: `malloc(21)`; on `NULL`, a diagnostic on `stderr` and `NULL`;
`gmtime`; on `NULL`, `NULL`; otherwise `strftime(timestamp, 21, "%Y-%m-%dT%H:%M:%SZ",
time_info)`, whose return value is not looked at, and the buffer is returned.
The result is (returned string or `none` for `NULL`, state). -/
def bugieGetTimeStamp (st : State) (clock : Clock) : Option CStr × State :=
  if clock.malloc_ok = false then
    (none, fprintf st FILE.stderr
      (printfExpand "failed to allocate memory for timestamp\n".toList []))
  else
    match clock.gmtime with
    | none => (none, st)
    | some time_info =>
      (some (strftime clock.indeterminate 21 "%Y-%m-%dT%H:%M:%SZ".toList time_info).2, st)

/-! ## The emitter: `bugieLog`, `bugieLogMessage` -/

/-- The `switch (log->level)` of `bugieLog`: (`color_code`, `level_string`). -/
def levelDescriptor (level : Int) : CStr × CStr :=
  if level = BUGIE_LOG_LEVEL_DEBUG then (BUGIE_ANSI_CODE_BLUE, "DEBUG".toList)
  else if level = BUGIE_LOG_LEVEL_INFO then (BUGIE_ANSI_CODE_GREEN, "INFO".toList)
  else if level = BUGIE_LOG_LEVEL_WARNING then (BUGIE_ANSI_CODE_YELLOW, "WARNING".toList)
  else if level = BUGIE_LOG_LEVEL_ERROR then (BUGIE_ANSI_CODE_RED, "ERROR".toList)
  else (BUGIE_ANSI_CODE_RESET, "UNKNOWN".toList)

/-- The text of the `fprintf` of `bugieLog`, from the record and from what
`bugieGetTimeStamp` returned: one format when there is a timestamp, another when it
is `NULL`; `log->context ? log->context : ""` in both. -/
def logLine (log : BUGIE_LOG) (timestamp : Option CStr) : CStr :=
  let color_code := (levelDescriptor log.level).1
  let level_string := (levelDescriptor log.level).2
  let context := match log.context with | some c => c | none => []
  match timestamp with
  | some ts =>
    printfExpand "%s[%s][%s] [%s] - %s%s\n".toList
      [color_code, ts, level_string, context, log.message, BUGIE_ANSI_CODE_RESET]
  | none =>
    printfExpand "%s[UNKNOWN TIME][%s] [%s] - %s%s\n".toList
      [color_code, level_string, context, log.message, BUGIE_ANSI_CODE_RESET]

/-- The stream `bugieLog` writes to: `log->stream ? log->stream : bugie_log_output`. -/
def selectStream (st : State) (log : BUGIE_LOG) : Option FILE :=
  match log.stream with
  | some s => some s
  | none => st.bugie_log_output

/-- The function `bugieLog(log)`, between taking and releasing the mutex: select the stream, get
the timestamp, `fprintf` the line to the stream.  `fprintf` on a null stream is
undefined behaviour: `none`. -/
def bugieLog (st : State) (log : BUGIE_LOG) (clock : Clock) : Option State :=
  let stream := selectStream st log
  let r := bugieGetTimeStamp st clock
  match stream with
  | some s => some (fprintf r.2 s (logLine log r.1))
  | none => none

/-- The char NUL, which terminates a C string. -/
def NUL : Char := Char.ofNat 0

/-- The call `vsnprintf(buf, n, format, args)` for `n` at least 1, `expansion` being
the chars the format expands to with its arguments (a `%c` with 0 puts a NUL among
them): the buffer receives the first `n - 1` of them and then a NUL.  The result is
what the buffer holds. -/
def vsnprintf (n : Nat) (expansion : List Char) : List Char :=
  expansion.take (n - 1) ++ [NUL]

/-- The C string a buffer holds: its chars up to the first NUL, which is what `%s`
prints of it. -/
def cString (buffer : List Char) : CStr :=
  buffer.takeWhile (fun c => decide (c ≠ NUL))

/-- The function `bugieLogMessage(stream, level, context, format, ...)`: `malloc(1024)` for the
message (`malloc_ok` says whether it returns a buffer; `vsnprintf` into `NULL` is
undefined behaviour: `none`), `vsnprintf(log.message, 1024, format, args)`, then
`bugieLog(&log)`, which reads `log.message` as a C string. -/
def bugieLogMessage (st : State) (stream : Option FILE) (level : Int)
    (context : Option CStr) (expansion : List Char) (malloc_ok : Bool) (clock : Clock) :
    Option State :=
  if malloc_ok then
    bugieLog st
      { stream := stream, level := level, context := context,
        message := cString (vsnprintf 1024 expansion) } clock
  else none

/-! ## Sequences of registry calls -/

/-- One call of the registry interface, with what the C library answers to it
(`file` is the result of the `fopen` inside `bugieSetLogOutputPath`). -/
inductive Call where
  | init
  | clean
  | setLogOutput (stream : Option FILE)
  | setLogOutputPath (filepath : CStr) (file : Option FILE)
deriving DecidableEq

/-- The effect of one call. -/
def step (st : State) : Call → State
  | Call.init => bugieInit st
  | Call.clean => bugieClean st
  | Call.setLogOutput stream => bugieSetLogOutput st stream
  | Call.setLogOutputPath filepath file => bugieSetLogOutputPath st filepath file

/-- The effect of a sequence of calls, first to last. -/
def run (st : State) (calls : List Call) : State :=
  calls.foldl step st

/-! ## Concrete inputs used below -/

/-- A clock on which everything succeeds: 2026-01-02 03:04:05 UTC. -/
def clock2026 : Clock :=
  { malloc_ok := true,
    gmtime := some { tm_sec := 5, tm_min := 4, tm_hour := 3, tm_mday := 2, tm_mon := 0,
                     tm_year := 126 },
    indeterminate := [] }

/-- The same instant, with `malloc(21)` returning `NULL`. -/
def clockNoMemory : Clock := { clock2026 with malloc_ok := false }

/-- A clock on which `gmtime` returns `NULL`. -/
def clockNoGmtime : Clock := { clock2026 with gmtime := none }

/-- The first second of the year 10000 (`time_t` 253402300800): `tm_year` is 8100;
the fresh buffer happens to read as `"\x01\x02"`. -/
def clock10000 : Clock :=
  { malloc_ok := true,
    gmtime := some { tm_sec := 0, tm_min := 0, tm_hour := 0, tm_mday := 1, tm_mon := 0,
                     tm_year := 8100 },
    indeterminate := "\x01\x02".toList }

/-- The state right after `bugieInit()`. -/
def afterInit : State := bugieInit State.initial

/-- The record `{ .stream = NULL, .level = BUGIE_LOG_LEVEL_INFO, .context = "auth",
.message = "user alice in" }` -/
def recordInfo : BUGIE_LOG :=
  { stream := none, level := BUGIE_LOG_LEVEL_INFO, context := some "auth".toList,
    message := "user alice in".toList }

/-- The record `{ .stream = stderr, .level = BUGIE_LOG_LEVEL_WARNING, .context = NULL,
.message = "hot" }` -/
def recordHot : BUGIE_LOG :=
  { stream := some FILE.stderr, level := BUGIE_LOG_LEVEL_WARNING, context := none,
    message := "hot".toList }

/-- A record whose message has a newline in it: `"disk\nfull"`. -/
def recordTwoLines : BUGIE_LOG :=
  { stream := none, level := BUGIE_LOG_LEVEL_ERROR, context := some "db".toList,
    message := "disk\nfull".toList }

/-- A program that opens a log file, then asks for one that cannot be opened:
`bugieInit(); bugieSetLogOutputPath("/tmp/x.log");` (opened, as stream 1)
`bugieSetLogOutputPath("/no/such/dir/x.log");` (`fopen` returns `NULL`). -/
def callsOpenThenFail : List Call :=
  [Call.init,
   Call.setLogOutputPath "/tmp/x.log".toList (some (FILE.other 1)),
   Call.setLogOutputPath "/no/such/dir/x.log".toList none]

/-- A program that goes through every call: `bugieInit(); bugieSetLogOutput(stderr);
bugieSetLogOutputPath("/tmp/x.log");` (opened, as stream 1) `bugieSetLogOutput(stdout);
bugieClean();` -/
def callsAll : List Call :=
  [Call.init,
   Call.setLogOutput (some FILE.stderr),
   Call.setLogOutputPath "/tmp/x.log".toList (some (FILE.other 1)),
   Call.setLogOutput (some FILE.stdout),
   Call.clean]

/-! ## Lemmas on the emitter -/

/-- The two formats of `bugieLog` expand to one layout, the timestamp slot holding the
timestamp or `UNKNOWN TIME`. -/
theorem logLine_eq (log : BUGIE_LOG) (timestamp : Option CStr) :
    logLine log timestamp =
      (levelDescriptor log.level).1 ++ "[".toList ++ timestamp.getD "UNKNOWN TIME".toList
        ++ "][".toList ++ (levelDescriptor log.level).2 ++ "] [".toList
        ++ log.context.getD [] ++ "] - ".toList ++ log.message
        ++ BUGIE_ANSI_CODE_RESET ++ "\n".toList := by
  cases timestamp <;> cases hc : log.context <;> simp [logLine, printfExpand, hc]

/-- With a stream selected, `bugieLog` returns, having written its line to it. -/
theorem bugieLog_eq (st : State) (log : BUGIE_LOG) (clock : Clock) (s : FILE)
    (h : selectStream st log = some s) :
    bugieLog st log clock =
      some (fprintf (bugieGetTimeStamp st clock).2 s
        (logLine log (bugieGetTimeStamp st clock).1)) := by
  simp [bugieLog, h]

/-- The colour and the label of a level have no newline in them. -/
theorem levelDescriptor_no_newline (level : Int) :
    '\n' ∉ (levelDescriptor level).1 ∧ '\n' ∉ (levelDescriptor level).2 := by
  unfold levelDescriptor
  split_ifs <;> exact ⟨by decide, by decide⟩

/-- The function `bugieGetTimeStamp` leaves the global and the closed streams alone, and writes
nothing but its diagnostic when `malloc` fails. -/
theorem bugieGetTimeStamp_state (st : State) (clock : Clock) :
    (bugieGetTimeStamp st clock).2.bugie_log_output = st.bugie_log_output ∧
    (bugieGetTimeStamp st clock).2.closes = st.closes ∧
    (bugieGetTimeStamp st clock).2.writes =
      st.writes ++
        (if clock.malloc_ok = false then
          [(FILE.stderr, "failed to allocate memory for timestamp\n".toList)]
         else []) := by
  unfold bugieGetTimeStamp
  cases hm : clock.malloc_ok <;> cases hg : clock.gmtime <;>
    simp [fprintf, printfExpand]

/-! ## The claims -/

/-- C4: the level descriptor of `bugieLog` is defined on every level value and is the
table DEBUG -> ("DEBUG", ESC[34m), INFO -> ("INFO", ESC[32m), WARNING -> ("WARNING",
ESC[1;33m), ERROR -> ("ERROR", ESC[1;31m); every other value, NONE and any integer
that is no enumerator included, gives ("UNKNOWN", ESC[0m). -/
theorem levelDescriptor_table :
    levelDescriptor BUGIE_LOG_LEVEL_DEBUG = ("\x1b[34m".toList, "DEBUG".toList) ∧
    levelDescriptor BUGIE_LOG_LEVEL_INFO = ("\x1b[32m".toList, "INFO".toList) ∧
    levelDescriptor BUGIE_LOG_LEVEL_WARNING = ("\x1b[1;33m".toList, "WARNING".toList) ∧
    levelDescriptor BUGIE_LOG_LEVEL_ERROR = ("\x1b[1;31m".toList, "ERROR".toList) ∧
    levelDescriptor BUGIE_LOG_LEVEL_NONE = ("\x1b[0m".toList, "UNKNOWN".toList) ∧
    ∀ level : Int,
      level ≠ BUGIE_LOG_LEVEL_DEBUG → level ≠ BUGIE_LOG_LEVEL_INFO →
      level ≠ BUGIE_LOG_LEVEL_WARNING → level ≠ BUGIE_LOG_LEVEL_ERROR →
      levelDescriptor level = ("\x1b[0m".toList, "UNKNOWN".toList) := by
  refine ⟨by decide, by decide, by decide, by decide, by decide, ?_⟩
  intro level h0 h1 h2 h3
  simp [levelDescriptor, h0, h1, h2, h3, BUGIE_ANSI_CODE_RESET]

/-- C4, at the levels -1 and 17, which are no enumerators. -/
theorem levelDescriptor_table_witness :
    levelDescriptor (-1) = ("\x1b[0m".toList, "UNKNOWN".toList) ∧
    levelDescriptor 17 = ("\x1b[0m".toList, "UNKNOWN".toList) :=
  ⟨levelDescriptor_table.2.2.2.2.2 (-1) (by decide) (by decide) (by decide) (by decide),
   levelDescriptor_table.2.2.2.2.2 17 (by decide) (by decide) (by decide) (by decide)⟩

/-- C3: for every record and every outcome of the timestamp, `bugieLog`, given a stream
to write to, returns and the text it writes to that stream is
color ++ "[" ++ T ++ "][" ++ label ++ "] [" ++ C ++ "] - " ++ message ++ ESC[0m ++ "\n",
with (color, label) the descriptor of the level, T the timestamp or `UNKNOWN TIME`
when `bugieGetTimeStamp` returned `NULL`, and C the context or the empty string when
the context is `NULL`. -/
theorem bugieLog_line_format (st : State) (log : BUGIE_LOG) (clock : Clock) (s : FILE)
    (h : selectStream st log = some s) :
    ∃ st', bugieLog st log clock = some st' ∧
      st'.writes = (bugieGetTimeStamp st clock).2.writes ++
        [(s, (levelDescriptor log.level).1 ++ "[".toList
              ++ (match (bugieGetTimeStamp st clock).1 with
                  | some ts => ts
                  | none => "UNKNOWN TIME".toList)
              ++ "][".toList ++ (levelDescriptor log.level).2 ++ "] [".toList
              ++ (match log.context with
                  | some c => c
                  | none => "".toList)
              ++ "] - ".toList ++ log.message ++ "\x1b[0m".toList ++ "\n".toList)] := by
  refine ⟨_, bugieLog_eq st log clock s h, ?_⟩
  rw [logLine_eq]
  cases (bugieGetTimeStamp st clock).1 <;> cases log.context <;>
    simp [fprintf, BUGIE_ANSI_CODE_RESET]

/-- C3, at the record (INFO, "auth", "user alice in") on the default stream `stdout`,
once with a timestamp and once with `gmtime` failing. -/
theorem bugieLog_line_format_witness :
    (∃ st', bugieLog afterInit recordInfo clock2026 = some st' ∧
      st'.writes = [(FILE.stdout,
        "\x1b[32m[2026-01-02T03:04:05Z][INFO] [auth] - user alice in\x1b[0m\n".toList)]) ∧
    (∃ st', bugieLog afterInit { recordInfo with context := none } clockNoGmtime = some st' ∧
      st'.writes = [(FILE.stdout,
        "\x1b[32m[UNKNOWN TIME][INFO] [] - user alice in\x1b[0m\n".toList)]) := by
  constructor
  · obtain ⟨st', h1, h2⟩ :=
      bugieLog_line_format afterInit recordInfo clock2026 FILE.stdout (by decide)
    exact ⟨st', h1, h2.trans (by decide)⟩
  · obtain ⟨st', h1, h2⟩ :=
      bugieLog_line_format afterInit { recordInfo with context := none } clockNoGmtime
        FILE.stdout (by decide)
    exact ⟨st', h1, h2.trans (by decide)⟩

/-- C5, refuted as stated: after `bugieInit()`, the record (ERROR, "db", "disk\nfull")
is written to `stdout` as one text with two newline chars in it. -/
theorem bugieLog_two_newlines :
    (bugieLog afterInit recordTwoLines clock2026).map
        (fun st' => st'.writes.map (fun w => (w.1, w.2.count '\n')))
      = some [(FILE.stdout, 2)] := by
  decide

/-- C5, amended: for every record and every outcome of the timestamp, the text
`bugieLog` writes to its stream ends with a newline char, and it has exactly one
newline char exactly when the timestamp text, the context and the message have none
(they are written as they are). -/
theorem bugieLog_newlines (st : State) (log : BUGIE_LOG) (clock : Clock) (s : FILE)
    (h : selectStream st log = some s) :
    ∃ st' line, bugieLog st log clock = some st' ∧
      st'.writes = (bugieGetTimeStamp st clock).2.writes ++ [(s, line)] ∧
      line.getLast? = some '\n' ∧
      (line.count '\n' = 1 ↔
        ('\n' ∉ ((bugieGetTimeStamp st clock).1).getD "UNKNOWN TIME".toList ∧
         '\n' ∉ (log.context).getD [] ∧ '\n' ∉ log.message)) := by
  refine ⟨_, _, bugieLog_eq st log clock s h, rfl, ?_, ?_⟩
  · rw [logLine_eq]
    exact List.getLast?_concat _
  · rw [logLine_eq]
    have hd := levelDescriptor_no_newline log.level
    have h1 := List.count_eq_zero.mpr hd.1
    have h2 := List.count_eq_zero.mpr hd.2
    have h3 : List.count '\n' BUGIE_ANSI_CODE_RESET = 0 := by decide
    simp only [List.count_append, h1, h2, h3]
    have e1 : List.count '\n' "[".toList = 0 := by decide
    have e2 : List.count '\n' "][".toList = 0 := by decide
    have e3 : List.count '\n' "] [".toList = 0 := by decide
    have e4 : List.count '\n' "] - ".toList = 0 := by decide
    have e5 : List.count '\n' "\n".toList = 1 := by decide
    rw [e1, e2, e3, e4, e5]
    simp only [← List.count_eq_zero]
    omega

/-- C5 amended, at the record (INFO, "auth", "user alice in") on `stdout`. -/
theorem bugieLog_newlines_witness :
    selectStream afterInit recordInfo = some FILE.stdout ∧
    ∃ st' line, bugieLog afterInit recordInfo clock2026 = some st' ∧
      st'.writes = (bugieGetTimeStamp afterInit clock2026).2.writes ++ [(FILE.stdout, line)] ∧
      line.getLast? = some '\n' ∧
      (line.count '\n' = 1 ↔
        ('\n' ∉ ((bugieGetTimeStamp afterInit clock2026).1).getD "UNKNOWN TIME".toList ∧
         '\n' ∉ (recordInfo.context).getD [] ∧ '\n' ∉ recordInfo.message)) :=
  ⟨by decide, bugieLog_newlines afterInit recordInfo clock2026 FILE.stdout (by decide)⟩

/-- C8, refuted as stated: with default `stdout` and override `stderr`, when
`malloc(21)` fails in `bugieGetTimeStamp` two texts go to `stderr`, not one; with
default `stderr` and another stream as override, `stderr`, which is not selected,
receives the diagnostic; and with no default and no override nothing is written. -/
theorem bugieLog_stderr_diagnostic :
    (bugieLog afterInit recordHot clockNoMemory).map State.writes =
      some [(FILE.stderr, "failed to allocate memory for timestamp\n".toList),
            (FILE.stderr, "\x1b[1;33m[UNKNOWN TIME][WARNING] [] - hot\x1b[0m\n".toList)] ∧
    (bugieLog (bugieSetLogOutput afterInit (some FILE.stderr))
        { recordHot with stream := some (FILE.other 1) } clockNoMemory).map State.writes =
      some [(FILE.stderr, "failed to allocate memory for timestamp\n".toList),
            (FILE.other 1, "\x1b[1;33m[UNKNOWN TIME][WARNING] [] - hot\x1b[0m\n".toList)] ∧
    bugieLog State.initial recordInfo clock2026 = none := by
  decide

/-- C8, amended: for every record, state and timestamp outcome, when the record has a
stream `bugieLog` writes its line to it, and when it has none and `bugie_log_output`
is non-null `bugieLog` writes its line to `bugie_log_output`; in both cases it returns,
`bugie_log_output` and the closed streams are as before, and the only other text
written is the diagnostic of `bugieGetTimeStamp` on `stderr`, before the line, when
`malloc(21)` fails. -/
theorem bugieLog_sink_selection (st : State) (log : BUGIE_LOG) (clock : Clock) :
    (∀ o : FILE, log.stream = some o →
      bugieLog st log clock =
        some { st with writes :=
          st.writes ++
            (if clock.malloc_ok = false then
              [(FILE.stderr, "failed to allocate memory for timestamp\n".toList)]
             else []) ++
            [(o, logLine log (bugieGetTimeStamp st clock).1)] }) ∧
    (∀ d : FILE, log.stream = none → st.bugie_log_output = some d →
      bugieLog st log clock =
        some { st with writes :=
          st.writes ++
            (if clock.malloc_ok = false then
              [(FILE.stderr, "failed to allocate memory for timestamp\n".toList)]
             else []) ++
            [(d, logLine log (bugieGetTimeStamp st clock).1)] }) := by
  obtain ⟨hg1, hg2, hg3⟩ := bugieGetTimeStamp_state st clock
  constructor
  · intro o ho
    rw [bugieLog_eq st log clock o (by simp [selectStream, ho])]
    cases hst : (bugieGetTimeStamp st clock).2
    simp_all [fprintf]
  · intro d hs hd
    rw [bugieLog_eq st log clock d (by simp [selectStream, hs, hd])]
    cases hst : (bugieGetTimeStamp st clock).2
    simp_all [fprintf]

/-- C8 amended, at the record (stream `stderr`, WARNING, no context, "hot") with
default `stdout` and at the record (no stream, INFO, "auth", "user alice in") with
default `stdout`, the timestamp being available: one text on `stderr` and none on
`stdout` for the first, one text on `stdout` for the second. -/
theorem bugieLog_sink_selection_witness :
    bugieLog afterInit recordHot clock2026 =
      some { afterInit with writes :=
        [(FILE.stderr, "\x1b[1;33m[2026-01-02T03:04:05Z][WARNING] [] - hot\x1b[0m\n".toList)] } ∧
    bugieLog afterInit recordInfo clock2026 =
      some { afterInit with writes :=
        [(FILE.stdout,
          "\x1b[32m[2026-01-02T03:04:05Z][INFO] [auth] - user alice in\x1b[0m\n".toList)] } :=
  ⟨((bugieLog_sink_selection afterInit recordHot clock2026).1 FILE.stderr rfl).trans
      (by decide),
   ((bugieLog_sink_selection afterInit recordInfo clock2026).2 FILE.stdout rfl rfl).trans
      (by decide)⟩

/-- The C string in a buffer that ends with a NUL: what precedes the first NUL. -/
theorem cString_append_NUL (l : List Char) :
    cString (l ++ [NUL]) = l.takeWhile (fun c => decide (c ≠ NUL)) := by
  induction l with
  | nil => simp [cString]
  | cons c rest ih =>
    by_cases hc : c = NUL
    · simp [cString, hc]
    · have ih' : List.takeWhile (fun c => decide (c ≠ NUL)) (rest ++ [NUL]) =
          List.takeWhile (fun c => decide (c ≠ NUL)) rest := ih
      have hd : decide (c ≠ NUL) = true := decide_eq_true hc
      show List.takeWhile (fun c => decide (c ≠ NUL)) (c :: (rest ++ [NUL])) =
        List.takeWhile (fun c => decide (c ≠ NUL)) (c :: rest)
      rw [List.takeWhile_cons, List.takeWhile_cons]
      simp only [hd, if_true, ih']

/-- A list with no NUL in it is a C string as it is. -/
theorem takeWhile_no_NUL (l : List Char) (h : NUL ∉ l) :
    l.takeWhile (fun c => decide (c ≠ NUL)) = l := by
  induction l with
  | nil => rfl
  | cons c rest ih =>
    have hc : c ≠ NUL := fun e => h (by simp [e])
    have hr : NUL ∉ rest := fun e => h (List.mem_cons_of_mem _ e)
    have hd : decide (c ≠ NUL) = true := decide_eq_true hc
    rw [List.takeWhile_cons]
    simp only [hd, if_true, ih hr]

/-- C9, refuted as stated: the format `"a%cb"` with the argument 0 expands to the three
chars `a`, NUL, `b`, fewer than 1023, and `bugieLogMessage` emits the message `a`
only, not the three chars, since `bugieLog` prints the buffer through `%s`; and when
`malloc(1024)` returns `NULL` no record is emitted at all. -/
theorem bugieLogMessage_stops_at_NUL :
    (bugieLogMessage afterInit none BUGIE_LOG_LEVEL_INFO (some "auth".toList)
        ['a', NUL, 'b'] true clock2026).map State.writes =
      some [(FILE.stdout, "\x1b[32m[2026-01-02T03:04:05Z][INFO] [auth] - a\x1b[0m\n".toList)] ∧
    cString (vsnprintf 1024 ['a', NUL, 'b']) = ['a'] ∧
    ['a', NUL, 'b'].take (min ['a', NUL, 'b'].length 1023) = ['a', NUL, 'b'] ∧
    bugieLogMessage afterInit none BUGIE_LOG_LEVEL_INFO (some "auth".toList)
        "rc=7".toList false clock2026 = none := by
  decide

/-- C9, amended: when `malloc(1024)` returns a buffer, `bugieLogMessage` with a format
and arguments that expand to the chars `m` does what `bugieLog` does on the record
with the same stream, level and context whose message is the first min(|m|, 1023)
chars of `m` up to the first NUL among them: the whole of `m` when it has at most 1023
chars and no NUL, and for `m` of 2000 chars with no NUL among the first 1023 the line
written is the layout up to the message, then exactly the first 1023 chars of `m`,
then ESC[0m and the newline. -/
theorem bugieLogMessage_truncates (st : State) (stream : Option FILE) (level : Int)
    (context : Option CStr) (m : List Char) (malloc_ok : Bool) (clock : Clock)
    (hm : malloc_ok = true) :
    bugieLogMessage st stream level context m malloc_ok clock =
      bugieLog st { stream := stream, level := level, context := context,
                    message := (m.take (min m.length 1023)).takeWhile
                      (fun c => decide (c ≠ NUL)) } clock ∧
    (m.length ≤ 1023 → NUL ∉ m →
      bugieLogMessage st stream level context m malloc_ok clock =
        bugieLog st { stream := stream, level := level, context := context,
                      message := m } clock) ∧
    (m.length = 2000 → NUL ∉ m.take 1023 → ∀ s : FILE,
      selectStream st { stream := stream, level := level, context := context,
                        message := m } = some s →
      (m.take 1023).length = 1023 ∧
      ∃ st', bugieLogMessage st stream level context m malloc_ok clock = some st' ∧
        st'.writes.getLast? = some (s,
          (levelDescriptor level).1 ++ "[".toList
            ++ ((bugieGetTimeStamp st clock).1).getD "UNKNOWN TIME".toList
            ++ "][".toList ++ (levelDescriptor level).2 ++ "] [".toList
            ++ context.getD [] ++ "] - ".toList
            ++ m.take 1023 ++ "\x1b[0m".toList ++ "\n".toList)) := by
  subst hm
  have hmin : m.take (min m.length 1023) = m.take 1023 := by
    rcases le_total m.length 1023 with hle | hle
    · rw [min_eq_left hle, List.take_of_length_le hle, List.take_of_length_le (le_refl _)]
    · rw [min_eq_right hle]
  have hmsg : cString (vsnprintf 1024 m) =
      (m.take 1023).takeWhile (fun c => decide (c ≠ NUL)) := by
    unfold vsnprintf
    exact cString_append_NUL _
  refine ⟨?_, ?_, ?_⟩
  · simp only [bugieLogMessage, if_true, hmsg, hmin]
  · intro hle hnul
    simp only [bugieLogMessage, if_true, hmsg, List.take_of_length_le hle,
      takeWhile_no_NUL m hnul]
  · intro hlen hnul s hs
    refine ⟨by simp [hlen], ?_⟩
    have hs' : selectStream st ⟨stream, level, context, m.take 1023⟩ = some s := hs
    have hrun : bugieLogMessage st stream level context m true clock =
        some (fprintf (bugieGetTimeStamp st clock).2 s
          (logLine ⟨stream, level, context, m.take 1023⟩ (bugieGetTimeStamp st clock).1)) := by
      simp only [bugieLogMessage, if_true, hmsg, takeWhile_no_NUL _ hnul]
      exact bugieLog_eq st _ clock s hs'
    refine ⟨_, hrun, ?_⟩
    rw [logLine_eq]
    simp [fprintf, BUGIE_ANSI_CODE_RESET]

/-- C9 amended, at the message "rc=7" and at a message of 2000 chars `x`, both to the
default stream `stdout` at level ERROR with context "db". -/
theorem bugieLogMessage_truncates_witness :
    bugieLogMessage afterInit none BUGIE_LOG_LEVEL_ERROR (some "db".toList) "rc=7".toList
        true clock2026 =
      bugieLog afterInit { stream := none, level := BUGIE_LOG_LEVEL_ERROR,
                           context := some "db".toList, message := "rc=7".toList } clock2026 ∧
    ((List.replicate 2000 'x').take 1023).length = 1023 ∧
    ∃ st', bugieLogMessage afterInit none BUGIE_LOG_LEVEL_ERROR (some "db".toList)
        (List.replicate 2000 'x') true clock2026 = some st' ∧
      st'.writes.getLast? = some (FILE.stdout,
        (levelDescriptor BUGIE_LOG_LEVEL_ERROR).1 ++ "[".toList
          ++ ((bugieGetTimeStamp afterInit clock2026).1).getD "UNKNOWN TIME".toList
          ++ "][".toList ++ (levelDescriptor BUGIE_LOG_LEVEL_ERROR).2 ++ "] [".toList
          ++ (some "db".toList).getD [] ++ "] - ".toList
          ++ (List.replicate 2000 'x').take 1023 ++ "\x1b[0m".toList ++ "\n".toList) :=
  ⟨(bugieLogMessage_truncates afterInit none BUGIE_LOG_LEVEL_ERROR (some "db".toList)
      "rc=7".toList true clock2026 rfl).2.1 (by decide) (by decide),
   (bugieLogMessage_truncates afterInit none BUGIE_LOG_LEVEL_ERROR (some "db".toList)
      (List.replicate 2000 'x') true clock2026 rfl).2.2 (List.length_replicate _ _)
      (fun h => absurd (List.eq_of_mem_replicate (List.mem_of_mem_take h)) (by decide))
      FILE.stdout rfl⟩

/-! ### The registry -/

/-- What one call closes: nothing, or the stream `bugie_log_output` pointed to, and
that only when it is neither `stdout` nor `stderr`; `bugieInit` closes nothing. -/
theorem step_closes (st : State) (c : Call) :
    ∃ l : List FILE, (step st c).closes = st.closes ++ l ∧
      ∀ f ∈ l, c ≠ Call.init ∧ st.bugie_log_output = some f ∧
        f ≠ FILE.stdout ∧ f ≠ FILE.stderr := by
  cases c with
  | init => exact ⟨[], by simp [step, bugieInit], by simp⟩
  | clean =>
    cases hb : st.bugie_log_output with
    | none => exact ⟨[], by simp [step, bugieClean, hb], by simp⟩
    | some f =>
      by_cases hf : f ≠ FILE.stdout ∧ f ≠ FILE.stderr
      · exact ⟨[f], by simp [step, bugieClean, hb, hf, fclose], by simp [hf]⟩
      · refine ⟨[], ?_, by simp⟩
        simp only [step, bugieClean, hb, if_neg hf, List.append_nil]
  | setLogOutput stream =>
    cases hb : st.bugie_log_output with
    | none => exact ⟨[], by simp [step, bugieSetLogOutput, hb], by simp⟩
    | some f =>
      by_cases hf : f ≠ FILE.stdout ∧ f ≠ FILE.stderr
      · exact ⟨[f], by simp [step, bugieSetLogOutput, hb, hf, fclose], by simp [hf]⟩
      · refine ⟨[], ?_, by simp⟩
        simp only [step, bugieSetLogOutput, hb, if_neg hf, List.append_nil]
  | setLogOutputPath filepath file =>
    cases hb : st.bugie_log_output with
    | none =>
      refine ⟨[], ?_, by simp⟩
      cases file <;> simp [step, bugieSetLogOutputPath, hb, fprintf]
    | some f =>
      by_cases hf : f ≠ FILE.stdout ∧ f ≠ FILE.stderr
      · refine ⟨[f], ?_, by simp [hf]⟩
        cases file <;> simp [step, bugieSetLogOutputPath, hb, hf, fclose, fprintf]
      · refine ⟨[], ?_, by simp⟩
        cases file <;>
          simp only [step, bugieSetLogOutputPath, hb, if_neg hf, fprintf, List.append_nil]

/-- C6: each of `bugieInit`, `bugieClean`, `bugieSetLogOutput` and
`bugieSetLogOutputPath` closes at most the stream `bugie_log_output` pointed to, and
that only when it is non-null and neither `stdout` nor `stderr` (`bugieInit` closes
nothing); so after any sequence of these calls, with any arguments and any outcome of
`fopen`, from any state, the streams closed by the sequence include neither `stdout`
nor `stderr`. -/
theorem standard_streams_never_closed :
    (∀ (st : State) (c : Call), ∃ l : List FILE,
      (step st c).closes = st.closes ++ l ∧
      ∀ f ∈ l, c ≠ Call.init ∧ st.bugie_log_output = some f ∧
        f ≠ FILE.stdout ∧ f ≠ FILE.stderr) ∧
    (∀ (st : State) (calls : List Call), ∃ l : List FILE,
      (run st calls).closes = st.closes ++ l ∧ FILE.stdout ∉ l ∧ FILE.stderr ∉ l) := by
  refine ⟨step_closes, ?_⟩
  intro st calls
  induction calls generalizing st with
  | nil => exact ⟨[], by simp [run], by simp, by simp⟩
  | cons c rest ih =>
    obtain ⟨l1, h1, h1'⟩ := step_closes st c
    obtain ⟨l2, h2, ho, he⟩ := ih (step st c)
    refine ⟨l1 ++ l2, ?_, ?_, ?_⟩
    · have : run st (c :: rest) = run (step st c) rest := rfl
      rw [this, h2, h1, List.append_assoc]
    · intro hmem
      rcases List.mem_append.mp hmem with hm | hm
      · exact (h1' _ hm).2.2.1 rfl
      · exact ho hm
    · intro hmem
      rcases List.mem_append.mp hmem with hm | hm
      · exact (h1' _ hm).2.2.2 rfl
      · exact he hm

/-- C6, at the program `callsAll`: the one stream it closes is the log file, when
`bugieSetLogOutput(stdout)` replaces it. -/
theorem standard_streams_never_closed_witness :
    (run State.initial callsAll).closes = [FILE.other 1] ∧
    ∃ l : List FILE, (run State.initial callsAll).closes = State.initial.closes ++ l ∧
      FILE.stdout ∉ l ∧ FILE.stderr ∉ l :=
  ⟨by decide, standard_streams_never_closed.2 State.initial callsAll⟩

/-- C2, refuted as stated: after `bugieInit()`, a stream A the caller supplies with
`bugieSetLogOutput(A)` (no `bugieSetLogOutputPath` is ever called) is closed by the
next `bugieSetLogOutput(stdout)`. -/
theorem bugieSetLogOutput_closes_caller_stream :
    (bugieSetLogOutput (bugieSetLogOutput afterInit (some (FILE.other 7)))
        (some FILE.stdout)).closes = [FILE.other 7] ∧
    (bugieSetLogOutput afterInit (some (FILE.other 7))).closes = [] := by
  decide

/-- C2, amended: for all streams A and B and every state, in
`bugieSetLogOutput(A); bugieSetLogOutput(B);` the second call closes A exactly when A
is non-null and is neither `stdout` nor `stderr`, whoever opened it, and closes
nothing else; then `bugie_log_output` is B. -/
theorem bugieSetLogOutput_twice (st : State) (A B : Option FILE) :
    (bugieSetLogOutput (bugieSetLogOutput st A) B).closes =
      (bugieSetLogOutput st A).closes ++
        (match A with
         | some a => if a ≠ FILE.stdout ∧ a ≠ FILE.stderr then [a] else []
         | none => []) ∧
    (bugieSetLogOutput (bugieSetLogOutput st A) B).bugie_log_output = B := by
  refine ⟨?_, rfl⟩
  cases A with
  | none => simp [bugieSetLogOutput]
  | some a =>
    by_cases ha : a ≠ FILE.stdout ∧ a ≠ FILE.stderr
    · simp [bugieSetLogOutput, ha, fclose]
    · have e : ∀ s : State, (bugieSetLogOutput s B).closes =
          (match s.bugie_log_output with
           | some f => if f ≠ FILE.stdout ∧ f ≠ FILE.stderr then fclose s f else s
           | none => s).closes := fun _ => rfl
      rw [e]
      have e2 : (bugieSetLogOutput st (some a)).bugie_log_output = some a := rfl
      simp only [e2, if_neg ha, List.append_nil]

/-- C1, on the code: in `bugieInit(); bugieSetLogOutputPath("/tmp/x.log");
bugieSetLogOutputPath("/no/such/dir/x.log");` where the first file opens (as stream 1)
and the second does not, the failed call closes stream 1, the current default, before
it tries `fopen`, and leaves `bugie_log_output` pointing to the closed stream; the
diagnostic goes to `stderr`. -/
theorem bugieSetLogOutputPath_failure_closes_default :
    run State.initial (callsOpenThenFail.take 2) =
      { bugie_log_output := some (FILE.other 1), closes := [], writes := [] } ∧
    run State.initial callsOpenThenFail =
      { bugie_log_output := some (FILE.other 1),
        closes := [FILE.other 1],
        writes := [(FILE.stderr, "failed to open log file /no/such/dir/x.log\n".toList)] } := by
  decide

/-- C7, on the code: at the first second of the year 10000 the expansion
`10000-01-01T00:00:00Z` has 21 chars and does not fit the 21-byte buffer with its NUL,
`strftime` returns 0, and `bugieGetTimeStamp` still returns the buffer, not `NULL`:
`bugieLog` prints what the buffer happens to hold between the first brackets, not
`UNKNOWN TIME`.  When `gmtime` fails `bugieGetTimeStamp` does return `NULL`, and in
2026 it returns the 20 chars `2026-01-02T03:04:05Z`. -/
theorem bugieGetTimeStamp_ignores_strftime_failure :
    strftimeExpand "%Y-%m-%dT%H:%M:%SZ".toList
        { tm_sec := 0, tm_min := 0, tm_hour := 0, tm_mday := 1, tm_mon := 0, tm_year := 8100 }
      = "10000-01-01T00:00:00Z".toList ∧
    (strftime clock10000.indeterminate 21 "%Y-%m-%dT%H:%M:%SZ".toList
        { tm_sec := 0, tm_min := 0, tm_hour := 0, tm_mday := 1, tm_mon := 0,
          tm_year := 8100 }).1 = 0 ∧
    (bugieGetTimeStamp afterInit clock10000).1 = some "\x01\x02".toList ∧
    (bugieLog afterInit recordInfo clock10000).map State.writes =
      some [(FILE.stdout, "\x1b[32m[\x01\x02][INFO] [auth] - user alice in\x1b[0m\n".toList)] ∧
    (bugieGetTimeStamp afterInit clockNoGmtime).1 = none ∧
    (bugieGetTimeStamp afterInit clock2026).1 = some "2026-01-02T03:04:05Z".toList := by
  decide

end Bugie
